import Mathlib

/-
Verification development for the heightmap-to-contour core of the
highmap-visualizer repository (web_version/js/heightmap.js and
web_version/js/terrain-renderer.js).

Embedding conventions:
- JavaScript numbers are embedded as exact rationals; every division
  performed on a reachable path is shown to have a nonzero denominator,
  except the one place the source divides 0 by 0 (the level formula at
  contourLevels = 1), where the resulting IEEE NaN is modelled as none.
- The silent early return of addContours (no heightmap, or
  contourLevels <= 0) is modelled as none; a run that reaches the body
  returns some of its result.  The source has no error values at all.
- The gradient hash of simplex2D calls Math.sin, a transcendental
  implementation-defined floating-point function with no exact rational
  embedding; the gradient selection is therefore a parameter constrained
  to the table grad3, and concrete instantiations record the selections
  the source hash makes at the finitely many lattice points a given
  sample reads (each selection lying far from a floor boundary, or at
  sin 0 = 0 exactly, so every conforming Math.sin makes the same one).
-/

/-- Elevation grid as produced by heightmap.js: a width, a height and a
flat row-major value array (the source object fields data/width/height). -/
structure Heightmap where
  width : ℕ
  height : ℕ
  data : List ℚ
  deriving DecidableEq

/-- Physical scale configuration (the mapScale object of the source):
width/height of the map and the maximal elevation, in kilometers. -/
structure MapScale where
  width_km : ℚ
  height_km : ℚ
  max_elevation_km : ℚ
  deriving DecidableEq

/-- Out-of-bounds reads of the value array would be undefined (NaN) in the
source; all reachable reads are within bounds, and the default 0 here is
never produced on the paths the theorems below describe. -/
def dataAt (data : List ℚ) (i : ℕ) : ℚ :=
  data.getD i 0

/-- Crossing test of terrain-renderer.js lines 210-211 and 222-223: one
endpoint at most the level, the other strictly above it. -/
def crossesEdge (v0 v1 level : ℚ) : Prop :=
  (v0 ≤ level ∧ v1 > level) ∨ (v0 > level ∧ v1 ≤ level)

instance crossesEdgeDecidable (v0 v1 level : ℚ) : Decidable (crossesEdge v0 v1 level) :=
  inferInstanceAs (Decidable (_ ∨ _))

/-- Body of the per-cell scan of addContours (terrain-renderer.js lines
203-232): the four corner heights are scaled by maxElevation, the forward
horizontal edge (x,y)-(x+1,y) and the forward vertical edge (x,y)-(x,y+1)
are tested, and each crossing edge emits one interpolated point in
fractional grid coordinates (the px/py of lines 213-214 and 225-226; the
source then maps px/py through the world-coordinate transform of the
Vector3 constructor, a rendering concern).  h11 is read by the source
(line 207) but never used for point emission. -/
def cellPoints (data : List ℚ) (width : ℕ) (maxElevation scaledLevel : ℚ)
    (x y : ℕ) : List (ℚ × ℚ) :=
  let idx := y * width + x
  let h00 := dataAt data idx * maxElevation
  let h10 := dataAt data (idx + 1) * maxElevation
  let h01 := dataAt data (idx + width) * maxElevation
  let horiz : List (ℚ × ℚ) :=
    if crossesEdge h00 h10 scaledLevel then
      let t := (scaledLevel - h00) / (h10 - h00)
      [((x : ℚ) + t, (y : ℚ))]
    else []
  let vert : List (ℚ × ℚ) :=
    if crossesEdge h00 h01 scaledLevel then
      let t := (scaledLevel - h00) / (h01 - h00)
      [((x : ℚ), (y : ℚ) + t)]
    else []
  horiz ++ vert

/-- Row-major cell scan of addContours for one level (terrain-renderer.js
lines 201-234): y runs over 0..height-2 outermost, x over 0..width-2, and
the points of each cell are appended in order. -/
def levelPoints (hm : Heightmap) (maxElevation scaledLevel : ℚ) : List (ℚ × ℚ) :=
  (List.range (hm.height - 1)).flatMap fun y =>
    (List.range (hm.width - 1)).flatMap fun x =>
      cellPoints hm.data hm.width maxElevation scaledLevel x y

/-- Minimum of the value array, computed as in terrain-renderer.js lines
178-184: a fold of Math.min over the data.  The source starts the fold at
Infinity; for nonempty data the result is the same as folding from the
head, and for empty data the junk value 0 here makes the height range 0,
which skips contour generation exactly as the source's Infinity does. -/
def listMin : List ℚ → ℚ
  | [] => 0
  | a :: l => l.foldl min a

/-- Maximum of the value array, as in terrain-renderer.js lines 178-184. -/
def listMax : List ℚ → ℚ
  | [] => 0
  | a :: l => l.foldl max a

/-- Level list construction of addContours (terrain-renderer.js lines
186-193): when the observed range is positive, contourLevels thresholds
minHeight + (i / (contourLevels - 1)) * heightRange are produced;
otherwise no level is produced at all.  With contourLevels = 1 the source
computes 0/0, an IEEE NaN that propagates through + and *, modelled here
as none; for contourLevels >= 2 the denominator is nonzero and the
arithmetic is exact. -/
def planLevels (data : List ℚ) (contourLevels : ℤ) : List (Option ℚ) :=
  let minHeight := listMin data
  let maxHeight := listMax data
  let heightRange := maxHeight - minHeight
  if 0 < heightRange then
    (List.range contourLevels.toNat).map fun (i : ℕ) =>
      if contourLevels = 1 then none
      else some (minHeight + ((i : ℚ) / ((contourLevels : ℚ) - 1)) * heightRange)
  else []

/-- Observable core of addContours (terrain-renderer.js lines 171-253):
none models the silent early return of line 172 (contourLevels <= 0);
otherwise the result pairs each planned level with the point list its
scan produces.  A NaN level (none) compares false against every height,
so its point list is empty.  The source's remaining work (grouping points
with more than one element into a Line object) is rendering. -/
def addContoursModel (hm : Heightmap) (contourLevels : ℤ) (scale : MapScale) :
    Option (List (Option ℚ × List (ℚ × ℚ))) :=
  if contourLevels ≤ 0 then none
  else
    let maxElevation := scale.max_elevation_km
    let heightRange := listMax hm.data - listMin hm.data
    if 0 < heightRange then
      some ((planLevels hm.data contourLevels).map fun lvl =>
        match lvl with
        | none => (none, [])
        | some level => (some level, levelPoints hm maxElevation (level * maxElevation)))
    else some []

/-- Result record of getTerrainInfo (terrain-renderer.js lines 300-307). -/
structure TerrainInfo where
  minElevation : ℚ
  maxElevation : ℚ
  elevationRange : ℚ
  mapWidth : ℚ
  mapHeight : ℚ
  resolution : ℤ
  deriving DecidableEq

/-- Terrain statistics of getTerrainInfo (terrain-renderer.js lines
285-308): grid extrema scaled to meters by max_elevation_km * 1000, the
map dimensions echoed from the scale, and the renderer resolution field
passed through. -/
def getTerrainInfo (hm : Heightmap) (scale : MapScale) (resolution : ℤ) : TerrainInfo :=
  let minHeight := listMin hm.data
  let maxHeight := listMax hm.data
  let heightRange := maxHeight - minHeight
  let maxElevation := scale.max_elevation_km
  { minElevation := minHeight * maxElevation * 1000
    maxElevation := maxHeight * maxElevation * 1000
    elevationRange := heightRange * maxElevation * 1000
    mapWidth := scale.width_km
    mapHeight := scale.height_km
    resolution := resolution }

/-- Little-endian unsigned 16-bit read, as DataView.getUint16(off, true)
in heightmap.js line 66. -/
def u16le (bytes : List ℕ) (off : ℕ) : ℕ :=
  bytes.getD off 0 + bytes.getD (off + 1) 0 * 256

/-- Little-endian unsigned 32-bit read, as DataView.getUint32(off, true)
in heightmap.js lines 52-53. -/
def u32le (bytes : List ℕ) (off : ℕ) : ℕ :=
  bytes.getD off 0 + bytes.getD (off + 1) 0 * 256 +
    bytes.getD (off + 2) 0 * 65536 + bytes.getD (off + 3) 0 * 16777216

/-- R16 decoder of heightmap.js lines 42-85: width and height from the
8-byte header, a size check rejecting any byte length other than
8 + width*height*2, then width*height 16-bit little-endian samples each
divided by 65535.  A buffer shorter than 8 bytes makes getUint32 throw,
caught by the same rejection path, hence the first none branch. -/
def readR16Heightmap (bytes : List ℕ) : Option Heightmap :=
  if bytes.length < 8 then none
  else
    let width := u32le bytes 0
    let height := u32le bytes 4
    if bytes.length ≠ 8 + width * height * 2 then none
    else
      some ⟨width, height,
        (List.range (width * height)).map fun i => (u16le bytes (8 + i * 2) : ℚ) / 65535⟩

/-- Gradient table grad3 of simplex2D (heightmap.js lines 128-131). -/
def grad3 : List (ℤ × ℤ) :=
  [(1, 1), (-1, 1), (1, -1), (-1, -1), (1, 0), (-1, 0), (0, 1), (0, -1)]

/-- Corner contribution of simplex2D (heightmap.js lines 141-152),
parameterized by the gradient selection gradF: the source picks
grad3[abs(floor(sin(ix*12.9898 + iy*78.233)*43758.5453*8)) % 8], a
transcendental implementation-defined floating-point hash with no exact
rational embedding, so the selection is a parameter; admissible
selections take values in grad3. -/
def simplexContribution (gradF : ℤ → ℤ → ℤ × ℤ) (ix iy : ℤ) (x y : ℚ) : ℚ :=
  let g := gradF ix iy
  let dx := x - (ix : ℚ)
  let dy := y - (iy : ℚ)
  let t : ℚ := 1/2 - dx * dx - dy * dy
  if t < 0 then 0
  else (t * t) * (t * t) * ((g.1 : ℚ) * dx + (g.2 : ℚ) * dy)

/-- Simplified 2D noise of heightmap.js lines 125-172: the four corner
contributions of the containing lattice square, summed and scaled by 70. -/
def simplex2D (gradF : ℤ → ℤ → ℤ × ℤ) (x y : ℚ) : ℚ :=
  (simplexContribution gradF ⌊x⌋ ⌊y⌋ x y +
    simplexContribution gradF (⌊x⌋ + 1) ⌊y⌋ x y +
    simplexContribution gradF ⌊x⌋ (⌊y⌋ + 1) x y +
    simplexContribution gradF (⌊x⌋ + 1) (⌊y⌋ + 1) x y) * 70

/-- Six-octave accumulation loop of generateRandomHeightmap (heightmap.js
lines 102-110), folding (value, amplitude, frequency) from (0, 1, 1) with
amplitude halved and frequency doubled each octave. -/
def octaveValue (gradF : ℤ → ℤ → ℤ × ℤ) (nx ny : ℚ) : ℚ :=
  ((List.range 6).foldl
    (fun acc _ =>
      (acc.1 + acc.2.1 * simplex2D gradF (nx * acc.2.2) (ny * acc.2.2),
        acc.2.1 * (1/2), acc.2.2 * 2))
    ((0 : ℚ), (1 : ℚ), (1 : ℚ))).1

/-- One sample of generateRandomHeightmap (heightmap.js lines 93-114):
centered coordinates nx = x/width - 0.5, ny = y/height - 0.5, the
six-octave noise value, then the final (value + 1) * 0.5 of line 113. -/
def sampleAt (gradF : ℤ → ℤ → ℤ × ℤ) (width height x y : ℕ) : ℚ :=
  let nx := (x : ℚ) / (width : ℚ) - 1/2
  let ny := (y : ℚ) / (height : ℚ) - 1/2
  (octaveValue gradF nx ny + 1) * (1/2)

/-- Random heightmap generator of heightmap.js lines 88-122: a
width*height grid whose entry at index i = y*width + x is the sample at
(x, y). -/
def generateRandomHeightmap (gradF : ℤ → ℤ → ℤ × ℤ) (width height : ℕ) : Heightmap :=
  ⟨width, height,
    (List.range (width * height)).map fun index =>
      sampleAt gradF width height (index % width) (index / width)⟩

/-- Gradient selections the source hash makes at the four lattice points
read by sample (3,3) of an 8x8 grid (all other lattice points feed only
contributions that vanish, so the default is irrelevant):
sin(-12.9898 - 78.233)*43758.5453*8 is 40730.079..., index 2, grad (1,-1);
sin(-78.233)*43758.5453*8 is -105729.463..., index 2, grad (1,-1);
sin(-12.9898)*43758.5453*8 is -143839.373..., index 0, grad (1,1);
sin(0) = 0 exactly, index 0, grad (1,1).
Each nonzero hash value is at least 0.079 away from an integer, far
beyond the error of any conforming Math.sin, so every implementation
selects this same table. -/
def gradDemo : ℤ → ℤ → ℤ × ℤ := fun ix iy =>
  if ix = -1 ∧ iy = -1 then (1, -1)
  else if ix = 0 ∧ iy = -1 then (1, -1)
  else (1, 1)

/-- In-bounds reads of the value array are members of it. -/
lemma dataAt_mem (data : List ℚ) (i : ℕ) (h : i < data.length) : dataAt data i ∈ data := by
  unfold dataAt
  rw [List.getD_eq_getElem data 0 h]
  exact List.getElem_mem h

lemma foldl_min_le (l : List ℚ) (a : ℚ) :
    l.foldl min a ≤ a ∧ ∀ v ∈ l, l.foldl min a ≤ v := by
  induction l generalizing a with
  | nil => simp
  | cons b t ih =>
    simp only [List.foldl_cons]
    constructor
    · exact le_trans (ih (min a b)).1 (min_le_left a b)
    · intro v hv
      rcases List.mem_cons.mp hv with rfl | hv
      · exact le_trans (ih (min a v)).1 (min_le_right a v)
      · exact (ih (min a b)).2 v hv

lemma foldl_min_mem (l : List ℚ) (a : ℚ) : l.foldl min a = a ∨ l.foldl min a ∈ l := by
  induction l generalizing a with
  | nil => exact Or.inl rfl
  | cons b t ih =>
    simp only [List.foldl_cons]
    rcases ih (min a b) with h | h
    · rcases le_total a b with hab | hab
      · exact Or.inl (by rw [h, min_eq_left hab])
      · refine Or.inr ?_
        rw [h, min_eq_right hab]
        exact List.mem_cons_self b t
    · exact Or.inr (List.mem_cons_of_mem b h)

lemma foldl_max_ge (l : List ℚ) (a : ℚ) :
    a ≤ l.foldl max a ∧ ∀ v ∈ l, v ≤ l.foldl max a := by
  induction l generalizing a with
  | nil => simp
  | cons b t ih =>
    simp only [List.foldl_cons]
    constructor
    · exact le_trans (le_max_left a b) (ih (max a b)).1
    · intro v hv
      rcases List.mem_cons.mp hv with rfl | hv
      · exact le_trans (le_max_right a v) (ih (max a v)).1
      · exact (ih (max a b)).2 v hv

lemma foldl_max_mem (l : List ℚ) (a : ℚ) : l.foldl max a = a ∨ l.foldl max a ∈ l := by
  induction l generalizing a with
  | nil => exact Or.inl rfl
  | cons b t ih =>
    simp only [List.foldl_cons]
    rcases ih (max a b) with h | h
    · rcases le_total a b with hab | hab
      · refine Or.inr ?_
        rw [h, max_eq_right hab]
        exact List.mem_cons_self b t
      · exact Or.inl (by rw [h, max_eq_left hab])
    · exact Or.inr (List.mem_cons_of_mem b h)

lemma listMin_le (l : List ℚ) : ∀ v ∈ l, listMin l ≤ v := by
  cases l with
  | nil => simp
  | cons a t =>
    intro v hv
    rcases List.mem_cons.mp hv with rfl | hv
    · exact (foldl_min_le t v).1
    · exact (foldl_min_le t a).2 v hv

lemma listMax_ge (l : List ℚ) : ∀ v ∈ l, v ≤ listMax l := by
  cases l with
  | nil => simp
  | cons a t =>
    intro v hv
    rcases List.mem_cons.mp hv with rfl | hv
    · exact (foldl_max_ge t v).1
    · exact (foldl_max_ge t a).2 v hv

lemma listMin_mem (l : List ℚ) (h : l ≠ []) : listMin l ∈ l := by
  cases l with
  | nil => exact absurd rfl h
  | cons a t =>
    show t.foldl min a ∈ a :: t
    rcases foldl_min_mem t a with h1 | h1
    · rw [h1]; exact List.mem_cons_self a t
    · exact List.mem_cons_of_mem a h1

lemma listMax_mem (l : List ℚ) (h : l ≠ []) : listMax l ∈ l := by
  cases l with
  | nil => exact absurd rfl h
  | cons a t =>
    show t.foldl max a ∈ a :: t
    rcases foldl_max_mem t a with h1 | h1
    · rw [h1]; exact List.mem_cons_self a t
    · exact List.mem_cons_of_mem a h1

lemma range_zero_of_flat (data : List ℚ) (c : ℚ) (h : ∀ v ∈ data, v = c) :
    listMax data - listMin data = 0 := by
  cases data with
  | nil => simp [listMin, listMax]
  | cons a t =>
    have h1 := h _ (listMin_mem (a :: t) (by simp))
    have h2 := h _ (listMax_mem (a :: t) (by simp))
    rw [h1, h2, sub_self]

lemma not_crossesEdge_of_le (v0 v1 level : ℚ) (h0 : v0 ≤ level) (h1 : v1 ≤ level) :
    ¬ crossesEdge v0 v1 level := by
  rintro (⟨ha, hb⟩ | ⟨ha, hb⟩)
  · exact absurd hb (not_lt_of_le h1)
  · exact absurd ha (not_lt_of_le h0)

lemma not_crossesEdge_of_gt (v0 v1 level : ℚ) (h0 : level < v0) (h1 : level < v1) :
    ¬ crossesEdge v0 v1 level := by
  rintro (⟨ha, hb⟩ | ⟨ha, hb⟩)
  · exact absurd ha (not_le_of_lt h0)
  · exact absurd hb (not_le_of_lt h1)

lemma cellPoints_eq_nil (data : List ℚ) (width : ℕ) (me sL : ℚ) (x y : ℕ)
    (h1 : ¬ crossesEdge (dataAt data (y * width + x) * me)
      (dataAt data (y * width + x + 1) * me) sL)
    (h2 : ¬ crossesEdge (dataAt data (y * width + x) * me)
      (dataAt data (y * width + x + width) * me) sL) :
    cellPoints data width me sL x y = [] := by
  simp [cellPoints, h1, h2]

lemma levelPoints_eq_nil (hm : Heightmap) (me sL : ℚ)
    (h : ∀ x y, x < hm.width - 1 → y < hm.height - 1 →
      cellPoints hm.data hm.width me sL x y = []) :
    levelPoints hm me sL = [] := by
  unfold levelPoints
  rw [List.flatMap_eq_nil_iff]
  intro y hy
  rw [List.flatMap_eq_nil_iff]
  intro x hx
  exact h x y (List.mem_range.mp hx) (List.mem_range.mp hy)

lemma levelPoints_small (hm : Heightmap) (me sL : ℚ) (h : hm.width < 2 ∨ hm.height < 2) :
    levelPoints hm me sL = [] := by
  apply levelPoints_eq_nil
  intro x y hx hy
  exfalso
  rcases h with h | h <;> omega

lemma cell_index_bounds (w h x y : ℕ) (hx : x < w - 1) (hy : y < h - 1) :
    y * w + x < w * h ∧ y * w + x + 1 < w * h ∧
    y * w + x + w < w * h ∧ y * w + x + w + 1 < w * h := by
  have h2 : y + 2 ≤ h := by omega
  have hxw : x + w + 1 < 2 * w := by omega
  have key : y * w + (x + w + 1) < y * w + 2 * w := Nat.add_lt_add_left hxw _
  have h4 : y * w + 2 * w ≤ h * w := by
    calc y * w + 2 * w = (y + 2) * w := by ring
      _ ≤ h * w := Nat.mul_le_mul_right w h2
  have hfin : y * w + (x + w + 1) < w * h := by
    calc y * w + (x + w + 1) < y * w + 2 * w := key
      _ ≤ h * w := h4
      _ = w * h := Nat.mul_comm h w
  refine ⟨?_, ?_, ?_, ?_⟩ <;> · linarith [hfin]

lemma cellPoints_unscaled (data : List ℚ) (w x y : ℕ) (me level : ℚ) (hme : 0 < me) :
    cellPoints data w me (level * me) x y =
      (if (dataAt data (y * w + x) ≤ level ∧ level < dataAt data (y * w + x + 1)) ∨
          (level < dataAt data (y * w + x) ∧ dataAt data (y * w + x + 1) ≤ level) then
        [((x : ℚ) + (level - dataAt data (y * w + x)) /
            (dataAt data (y * w + x + 1) - dataAt data (y * w + x)), (y : ℚ))]
      else []) ++
      (if (dataAt data (y * w + x) ≤ level ∧ level < dataAt data (y * w + x + w)) ∨
          (level < dataAt data (y * w + x) ∧ dataAt data (y * w + x + w) ≤ level) then
        [((x : ℚ), (y : ℚ) + (level - dataAt data (y * w + x)) /
            (dataAt data (y * w + x + w) - dataAt data (y * w + x)))]
      else []) := by
  have hne : me ≠ 0 := ne_of_gt hme
  have hcond : ∀ a b : ℚ, crossesEdge (a * me) (b * me) (level * me) ↔
      ((a ≤ level ∧ level < b) ∨ (level < a ∧ b ≤ level)) := by
    intro a b
    unfold crossesEdge
    rw [gt_iff_lt, gt_iff_lt, mul_le_mul_right hme, mul_le_mul_right hme,
      mul_lt_mul_right hme, mul_lt_mul_right hme]
  have ht : ∀ a b : ℚ, (level * me - a * me) / (b * me - a * me) = (level - a) / (b - a) := by
    intro a b
    rw [← sub_mul, ← sub_mul, mul_div_mul_right _ _ hne]
  simp only [cellPoints, hcond, ht]

/-- C1: for every grid and level the extractor scans cells in row-major
order testing only the forward horizontal edge (x,y)-(x+1,y) and the
forward vertical edge (x,y)-(x,y+1) of each sample; an edge emits exactly
one point iff one endpoint value is at most the level and the other is
strictly above it (a sample equal to the level counting as below), at
interpolated fraction t = (level - v0) / (v1 - v0) along the edge; and on
the 2x2 grid with row-major values [0, 1, 0, 1] at level 1/2 the output
is exactly the single point (1/2, 0).  Stated for any positive
max_elevation_km scale factor, since the source compares values scaled by
it. -/
theorem c1_forward_edge_scan (hm : Heightmap) (data : List ℚ) (w x y : ℕ)
    (me level sL : ℚ) (hme : 0 < me) :
    (levelPoints hm me sL =
      (List.range (hm.height - 1)).flatMap fun yy =>
        (List.range (hm.width - 1)).flatMap fun xx =>
          cellPoints hm.data hm.width me sL xx yy) ∧
    (cellPoints data w me (level * me) x y =
      (if (dataAt data (y * w + x) ≤ level ∧ level < dataAt data (y * w + x + 1)) ∨
          (level < dataAt data (y * w + x) ∧ dataAt data (y * w + x + 1) ≤ level) then
        [((x : ℚ) + (level - dataAt data (y * w + x)) /
            (dataAt data (y * w + x + 1) - dataAt data (y * w + x)), (y : ℚ))]
      else []) ++
      (if (dataAt data (y * w + x) ≤ level ∧ level < dataAt data (y * w + x + w)) ∨
          (level < dataAt data (y * w + x) ∧ dataAt data (y * w + x + w) ≤ level) then
        [((x : ℚ), (y : ℚ) + (level - dataAt data (y * w + x)) /
            (dataAt data (y * w + x + w) - dataAt data (y * w + x)))]
      else [])) ∧
    levelPoints ⟨2, 2, [0, 1, 0, 1]⟩ me (1/2 * me) = [(1/2, 0)] := by
  refine ⟨rfl, cellPoints_unscaled data w x y me level hme, ?_⟩
  have hcell := cellPoints_unscaled [0, 1, 0, 1] 2 0 0 me (1/2) hme
  show (List.range (2 - 1)).flatMap (fun yy => (List.range (2 - 1)).flatMap fun xx =>
      cellPoints [0, 1, 0, 1] 2 me (1/2 * me) xx yy) = [(1/2, 0)]
  have hr1 : List.range (2 - 1) = [0] := rfl
  rw [hr1]
  simp only [List.flatMap_cons, List.flatMap_nil, List.append_nil]
  rw [hcell]
  norm_num [dataAt]

/-- Closed instance of c1_forward_edge_scan at scale factor 1, recovering
the spec scenario: grid 2x2, values [0, 1, 0, 1], level 1/2, output
exactly the point (1/2, 0). -/
theorem c1_forward_edge_scan_witness :
    levelPoints ⟨2, 2, [0, 1, 0, 1]⟩ 1 (1/2 * 1) = [(1/2, 0)] :=
  (c1_forward_edge_scan ⟨2, 2, [0, 1, 0, 1]⟩ [] 0 0 0 1 0 (1/2 * 1) one_pos).2.2

/-- C7: whenever the crossing branch of the scan is entered, the two
scaled endpoint heights differ, so the interpolation denominator
v1 - v0 is nonzero and no division by zero can occur; the source needs no
added runtime check for this. -/
theorem c7_crossing_implies_nonzero_denominator (v0 v1 level : ℚ)
    (h : crossesEdge v0 v1 level) : v1 - v0 ≠ 0 := by
  rcases h with ⟨h0, h1⟩ | ⟨h0, h1⟩
  · exact sub_ne_zero_of_ne (ne_of_gt (lt_of_le_of_lt h0 h1))
  · exact sub_ne_zero_of_ne (ne_of_lt (lt_of_le_of_lt h1 h0))

/-- Closed instance of c7_crossing_implies_nonzero_denominator on the
crossing edge with endpoint values 0 and 1 at level 1/2. -/
theorem c7_crossing_implies_nonzero_denominator_witness : (1 : ℚ) - 0 ≠ 0 :=
  c7_crossing_implies_nonzero_denominator 0 1 (1/2)
    (Or.inl ⟨by norm_num, by norm_num⟩)

lemma not_crossesEdge_self (v level : ℚ) : ¬ crossesEdge v v level := by
  rintro (⟨ha, hb⟩ | ⟨ha, hb⟩)
  · exact absurd ha (not_le_of_lt hb)
  · exact absurd hb (not_le_of_lt ha)

/-- C6: for a well-formed grid and positive scale factor, (a) a level
strictly above the grid maximum yields an empty point list, (b) a level
strictly below the grid minimum yields an empty point list, and (c) a
flat grid yields an empty point list for every level, including the level
equal to the flat value. -/
theorem c6_out_of_range_and_flat_empty (hm : Heightmap) (me level c : ℚ)
    (hlen : hm.data.length = hm.width * hm.height) (hme : 0 < me) :
    (listMax hm.data < level →
      levelPoints hm me (level * me) = []) ∧
    (level < listMin hm.data →
      levelPoints hm me (level * me) = []) ∧
    ((∀ v ∈ hm.data, v = c) →
      levelPoints hm me (level * me) = []) := by
  refine ⟨?_, ?_, ?_⟩ <;> intro hcond <;> apply levelPoints_eq_nil <;> intro x y hx hy <;>
    obtain ⟨i0, i1, i2, i3⟩ := cell_index_bounds hm.width hm.height x y hx hy
  · apply cellPoints_eq_nil
    · apply not_crossesEdge_of_le
      · exact (mul_le_mul_right hme).mpr (le_of_lt (lt_of_le_of_lt
          (listMax_ge _ _ (dataAt_mem _ _ (by rw [hlen]; exact i0))) hcond))
      · exact (mul_le_mul_right hme).mpr (le_of_lt (lt_of_le_of_lt
          (listMax_ge _ _ (dataAt_mem _ _ (by rw [hlen]; exact i1))) hcond))
    · apply not_crossesEdge_of_le
      · exact (mul_le_mul_right hme).mpr (le_of_lt (lt_of_le_of_lt
          (listMax_ge _ _ (dataAt_mem _ _ (by rw [hlen]; exact i0))) hcond))
      · exact (mul_le_mul_right hme).mpr (le_of_lt (lt_of_le_of_lt
          (listMax_ge _ _ (dataAt_mem _ _ (by rw [hlen]; exact i2))) hcond))
  · apply cellPoints_eq_nil
    · apply not_crossesEdge_of_gt
      · exact (mul_lt_mul_right hme).mpr (lt_of_lt_of_le hcond
          (listMin_le _ _ (dataAt_mem _ _ (by rw [hlen]; exact i0))))
      · exact (mul_lt_mul_right hme).mpr (lt_of_lt_of_le hcond
          (listMin_le _ _ (dataAt_mem _ _ (by rw [hlen]; exact i1))))
    · apply not_crossesEdge_of_gt
      · exact (mul_lt_mul_right hme).mpr (lt_of_lt_of_le hcond
          (listMin_le _ _ (dataAt_mem _ _ (by rw [hlen]; exact i0))))
      · exact (mul_lt_mul_right hme).mpr (lt_of_lt_of_le hcond
          (listMin_le _ _ (dataAt_mem _ _ (by rw [hlen]; exact i2))))
  · have e0 : dataAt hm.data (y * hm.width + x) = c :=
      hcond _ (dataAt_mem _ _ (by rw [hlen]; exact i0))
    have e1 : dataAt hm.data (y * hm.width + x + 1) = c :=
      hcond _ (dataAt_mem _ _ (by rw [hlen]; exact i1))
    have e2 : dataAt hm.data (y * hm.width + x + hm.width) = c :=
      hcond _ (dataAt_mem _ _ (by rw [hlen]; exact i2))
    apply cellPoints_eq_nil
    · rw [e0, e1]
      exact not_crossesEdge_self _ _
    · rw [e0, e2]
      exact not_crossesEdge_self _ _

/-- Closed instance of c6_out_of_range_and_flat_empty: the flat 2x2 zero
grid yields no contour points at the level equal to its flat value. -/
theorem c6_out_of_range_and_flat_empty_witness :
    levelPoints ⟨2, 2, [0, 0, 0, 0]⟩ 1 (0 * 1) = [] :=
  (c6_out_of_range_and_flat_empty ⟨2, 2, [0, 0, 0, 0]⟩ 1 0 0 rfl one_pos).2.2 (by simp)

lemma listMin_01 : listMin [0, 1] = 0 := by
  show min (0 : ℚ) 1 = 0
  exact min_eq_left (by norm_num)

lemma listMax_01 : listMax [0, 1] = 1 := by
  show max (0 : ℚ) 1 = 1
  exact max_eq_right (by norm_num)

lemma addContoursModel_pos (hm : Heightmap) (n : ℤ) (scale : MapScale)
    (hn : ¬ n ≤ 0) (hr : 0 < listMax hm.data - listMin hm.data) :
    addContoursModel hm n scale =
      some ((planLevels hm.data n).map fun lvl =>
        match lvl with
        | none => (none, [])
        | some level => (some level, levelPoints hm scale.max_elevation_km
            (level * scale.max_elevation_km))) := by
  simp only [addContoursModel]
  rw [if_neg hn, if_pos hr]

/-- C2 fails on the code: there are no error values at all.  On the one
row grid (2 wide, 1 high, values [0, 1]) with 2 requested levels the
code runs normally and returns levels with empty point lists, the
silently empty contour set the claim rules out; and with a requested
level count of 0 addContours silently returns early (none), not an
InvalidLevelCount error. -/
theorem c2_no_error_values_counterexample :
    addContoursModel ⟨2, 1, [0, 1]⟩ 2 ⟨10, 10, 5⟩ =
      some [(some 0, []), (some 1, [])] ∧
    addContoursModel ⟨2, 2, [0, 1, 0, 1]⟩ 0 ⟨10, 10, 5⟩ = none := by
  constructor
  · have hpl : planLevels [0, 1] 2 = [some 0, some 1] := by
      simp only [planLevels]
      rw [listMin_01, listMax_01, if_pos (by norm_num : (0 : ℚ) < 1 - 0),
        show ((2 : ℤ)).toNat = 2 from rfl, show List.range 2 = [0, 1] from rfl]
      simp only [List.map_cons, List.map_nil]
      norm_num
    have hlp : ∀ L : ℚ, levelPoints ⟨2, 1, [0, 1]⟩ 5 L = [] := fun L =>
      levelPoints_small ⟨2, 1, [0, 1]⟩ 5 L (Or.inr (by norm_num))
    rw [addContoursModel_pos _ _ _ (by norm_num)
      (by rw [listMin_01, listMax_01]; norm_num), hpl]
    simp [hlp]
  · simp only [addContoursModel]
    rw [if_pos (by norm_num : (0 : ℤ) ≤ 0)]

/-- C2 amended: for a requested level count at most 0 addContours
silently returns early, and for a grid with width < 2 or height < 2 every
level the run produces carries an empty point list; no error value exists
on any path. -/
theorem c2_silent_empty_behavior (hm : Heightmap) (n : ℤ) (scale : MapScale) :
    (n ≤ 0 → addContoursModel hm n scale = none) ∧
    ((hm.width < 2 ∨ hm.height < 2) →
      ((addContoursModel hm n scale).getD []).all (fun p => p.2.isEmpty) = true) := by
  constructor
  · intro hn
    simp only [addContoursModel]
    rw [if_pos hn]
  · intro hsmall
    by_cases hn : n ≤ 0
    · simp only [addContoursModel]
      rw [if_pos hn]
      rfl
    · by_cases hr : 0 < listMax hm.data - listMin hm.data
      · rw [addContoursModel_pos hm n scale hn hr]
        simp only [Option.getD_some]
        rw [List.all_eq_true]
        intro p hp
        rcases List.mem_map.mp hp with ⟨lvl, hlvl, rfl⟩
        cases lvl with
        | none => rfl
        | some L =>
          show (levelPoints hm scale.max_elevation_km
            (L * scale.max_elevation_km)).isEmpty = true
          rw [levelPoints_small hm _ _ hsmall]
          rfl
      · simp only [addContoursModel]
        rw [if_neg hn, if_neg hr]
        rfl

/-- Closed instances of c2_silent_empty_behavior: level count -3 returns
the silent none, and a 1-wide grid yields only empty point lists. -/
theorem c2_silent_empty_behavior_witness :
    addContoursModel ⟨2, 2, [0, 1, 0, 1]⟩ (-3) ⟨10, 10, 5⟩ = none ∧
    ((addContoursModel ⟨1, 2, [0, 1]⟩ 2 ⟨10, 10, 5⟩).getD []).all
      (fun p => p.2.isEmpty) = true :=
  ⟨(c2_silent_empty_behavior ⟨2, 2, [0, 1, 0, 1]⟩ (-3) ⟨10, 10, 5⟩).1 (by norm_num),
    (c2_silent_empty_behavior ⟨1, 2, [0, 1]⟩ 2 ⟨10, 10, 5⟩).2 (Or.inl (by norm_num))⟩

/-- C3 fails on the code: with grid values [0, 1] (minimum 0, maximum 1)
and contourLevels = 1 the level formula divides 0 by 0, so the planner
produces one NaN level (modelled none) instead of the single level
[min] = [0] the claim states. -/
theorem c3_level_count_one_gives_nan :
    planLevels [0, 1] 1 = [none] := by
  simp only [planLevels]
  rw [listMin_01, listMax_01, if_pos (by norm_num : (0 : ℚ) < 1 - 0),
    show ((1 : ℤ)).toNat = 1 from rfl, show List.range 1 = [0] from rfl]
  simp only [List.map_cons, List.map_nil]
  simp

/-- C4 fails on the code: on the flat list [1/5, 1/5, 1/5, 1/5] with 5
requested levels the planner produces no level at all (the positive-range
branch is skipped), not the single level [1/5] the claim states. -/
theorem c4_flat_grid_counterexample :
    planLevels [1/5, 1/5, 1/5, 1/5] 5 = [] := by
  simp only [planLevels]
  rw [range_zero_of_flat [1/5, 1/5, 1/5, 1/5] (1/5) (by simp)]
  norm_num

/-- C4 amended: for every flat value list (all samples equal) and every
requested level count the planner produces no levels at all, because the
generation loop sits inside the positive-range branch. -/
theorem c4_flat_grid_no_levels (data : List ℚ) (n : ℤ) (c : ℚ)
    (h : ∀ v ∈ data, v = c) : planLevels data n = [] := by
  simp only [planLevels]
  rw [range_zero_of_flat data c h]
  norm_num

/-- Closed instance of c4_flat_grid_no_levels on the flat list
[1/5, 1/5] with 7 requested levels. -/
theorem c4_flat_grid_no_levels_witness : planLevels [1/5, 1/5] 7 = [] :=
  c4_flat_grid_no_levels [1/5, 1/5] 7 (1/5) (by simp)

/-- C8: for every nonempty grid and scale, the statistics are the true
grid extrema (the fold results are members of the data and bound it)
scaled by max_elevation_km * 1000 with no rounding, the map dimensions
are echoed from the scale, and on the grid spanning [1/10, 9/10] with
max_elevation_km = 5 the result is 500 m, 4500 m, 4000 m. -/
theorem c8_terrain_stats (hm : Heightmap) (scale : MapScale) (res : ℤ)
    (hne : hm.data ≠ []) :
    ((getTerrainInfo hm scale res).minElevation =
        listMin hm.data * scale.max_elevation_km * 1000 ∧
      (getTerrainInfo hm scale res).maxElevation =
        listMax hm.data * scale.max_elevation_km * 1000 ∧
      (getTerrainInfo hm scale res).elevationRange =
        (listMax hm.data - listMin hm.data) * scale.max_elevation_km * 1000 ∧
      (getTerrainInfo hm scale res).mapWidth = scale.width_km ∧
      (getTerrainInfo hm scale res).mapHeight = scale.height_km) ∧
    (listMin hm.data ∈ hm.data ∧ ∀ v ∈ hm.data, listMin hm.data ≤ v) ∧
    (listMax hm.data ∈ hm.data ∧ ∀ v ∈ hm.data, v ≤ listMax hm.data) ∧
    getTerrainInfo ⟨2, 2, [9/10, 1/10, 1/2, 3/10]⟩ ⟨10, 10, 5⟩ 500 =
      ⟨500, 4500, 4000, 10, 10, 500⟩ := by
  refine ⟨⟨rfl, rfl, rfl, rfl, rfl⟩,
    ⟨listMin_mem hm.data hne, listMin_le hm.data⟩,
    ⟨listMax_mem hm.data hne, listMax_ge hm.data⟩, ?_⟩
  have lm : listMin [9/10, 1/10, 1/2, 3/10] = 1/10 := by
    show List.foldl min (9/10 : ℚ) [1/10, 1/2, 3/10] = 1/10
    norm_num [min_def]
  have lx : listMax [9/10, 1/10, 1/2, 3/10] = 9/10 := by
    show List.foldl max (9/10 : ℚ) [1/10, 1/2, 3/10] = 9/10
    norm_num [max_def]
  simp only [getTerrainInfo]
  rw [lm, lx]
  norm_num [TerrainInfo.mk.injEq]

/-- Closed instance of c8_terrain_stats: the spec scenario with values
spanning [1/10, 9/10] and max_elevation_km = 5. -/
theorem c8_terrain_stats_witness :
    getTerrainInfo ⟨2, 2, [9/10, 1/10, 1/2, 3/10]⟩ ⟨10, 10, 5⟩ 500 =
      ⟨500, 4500, 4000, 10, 10, 500⟩ :=
  (c8_terrain_stats ⟨2, 2, [9/10, 1/10, 1/2, 3/10]⟩ ⟨10, 10, 5⟩ 500 (by simp)).2.2.2

/-- C10: over exact rational arithmetic the statistics satisfy
elevationRange = maxElevation - minElevation for every grid and scale,
because all three are the grid extrema scaled by one common factor. -/
theorem c10_range_equals_difference (hm : Heightmap) (scale : MapScale) (res : ℤ) :
    (getTerrainInfo hm scale res).elevationRange =
      (getTerrainInfo hm scale res).maxElevation -
        (getTerrainInfo hm scale res).minElevation := by
  simp only [getTerrainInfo]
  ring

lemma getD_lt_of_all (bytes : List ℕ) (i : ℕ) (h : ∀ b ∈ bytes, b < 256) :
    bytes.getD i 0 < 256 := by
  by_cases hi : i < bytes.length
  · refine h _ ?_
    rw [List.getD_eq_getElem bytes 0 hi]
    exact List.getElem_mem hi
  · rw [List.getD_eq_default]
    · norm_num
    · omega

/-- C9: the R16 decoder reads width from bytes 0-3 and height from bytes
4-7 as little-endian 32-bit integers, fails whenever the byte length is
not 8 + width*height*2, and otherwise returns the grid whose i-th sample
is the little-endian 16-bit integer at offset 8 + 2i divided by 65535;
the resulting grid has width*height samples, each in [0, 1] when the
input is a byte buffer. -/
theorem c9_r16_layout (bytes : List ℕ) :
    (bytes.length ≠ 8 + u32le bytes 0 * u32le bytes 4 * 2 →
      readR16Heightmap bytes = none) ∧
    (bytes.length = 8 + u32le bytes 0 * u32le bytes 4 * 2 →
      readR16Heightmap bytes =
        some ⟨u32le bytes 0, u32le bytes 4,
          (List.range (u32le bytes 0 * u32le bytes 4)).map fun i =>
            (u16le bytes (8 + i * 2) : ℚ) / 65535⟩) ∧
    (∀ g, readR16Heightmap bytes = some g →
      g.data.length = g.width * g.height ∧
      ((∀ b ∈ bytes, b < 256) → ∀ v ∈ g.data, 0 ≤ v ∧ v ≤ 1)) := by
  refine ⟨?_, ?_, ?_⟩
  · intro h
    simp only [readR16Heightmap]
    by_cases h8 : bytes.length < 8
    · rw [if_pos h8]
    · rw [if_neg h8, if_pos h]
  · intro h
    have hb : 8 ≤ bytes.length := by
      rw [h]
      exact Nat.le_add_right 8 _
    simp only [readR16Heightmap]
    rw [if_neg (Nat.not_lt.mpr hb), if_neg (fun hne => hne h)]
  · intro g hg
    simp only [readR16Heightmap] at hg
    by_cases h8 : bytes.length < 8
    · rw [if_pos h8] at hg
      exact absurd hg (by simp)
    · rw [if_neg h8] at hg
      by_cases hsz : bytes.length ≠ 8 + u32le bytes 0 * u32le bytes 4 * 2
      · rw [if_pos hsz] at hg
        exact absurd hg (by simp)
      · rw [if_neg hsz] at hg
        have hg' := Option.some.inj hg
        subst hg'
        constructor
        · simp
        · intro hbytes v hv
          rcases List.mem_map.mp hv with ⟨i, hi, rfl⟩
          constructor
          · positivity
          · rw [div_le_one (by norm_num : (0 : ℚ) < 65535)]
            have hle : u16le bytes (8 + i * 2) ≤ 65535 := by
              have b0 := getD_lt_of_all bytes (8 + i * 2) hbytes
              have b1 := getD_lt_of_all bytes (8 + i * 2 + 1) hbytes
              unfold u16le
              omega
            exact_mod_cast hle

/-- Closed instance of c9_r16_layout: the 10-byte file declaring a 1x1
grid with the single sample 0xFFFF decodes to the one-sample grid with
value 65535/65535. -/
theorem c9_r16_layout_witness :
    readR16Heightmap [1, 0, 0, 0, 1, 0, 0, 0, 255, 255] =
      some ⟨1, 1, [(65535 : ℚ) / 65535]⟩ := by
  have h := (c9_r16_layout [1, 0, 0, 0, 1, 0, 0, 0, 255, 255]).2.1 (by decide)
  rw [h, show u32le [1, 0, 0, 0, 1, 0, 0, 0, 255, 255] 0 = 1 from rfl,
    show u32le [1, 0, 0, 0, 1, 0, 0, 0, 255, 255] 4 = 1 from rfl,
    show (1 * 1 : ℕ) = 1 from rfl, show List.range 1 = [0] from rfl]
  simp only [List.map_cons, List.map_nil]
  rw [show u16le [1, 0, 0, 0, 1, 0, 0, 0, 255, 255] (8 + 0 * 2) = 65535 from rfl]
  norm_num [Heightmap.mk.injEq, Option.some.injEq]

/-- C5 fails on the code: the random generator does not keep samples in
[0, 1].  With the gradient selections the source hash makes at the four
lattice points that matter (gradDemo, an admissible selection: all its
values lie in grad3), sample (3, 3) of generateRandomHeightmap 8 8 -
stored at row-major index 3*8 + 3 of the 8*8-entry value array - equals
-400483/4194304, strictly below 0, contradicting the normalization
comment at heightmap.js line 112 and the grid invariant. -/
theorem c5_random_sample_below_zero :
    (∀ ix iy, gradDemo ix iy ∈ grad3) ∧
    (generateRandomHeightmap gradDemo 8 8).data.length = 8 * 8 ∧
    (generateRandomHeightmap gradDemo 8 8).data.getD (3 * 8 + 3) 0 =
      -(400483/4194304) ∧
    (generateRandomHeightmap gradDemo 8 8).data.getD (3 * 8 + 3) 0 < 0 := by
  have hadm : ∀ ix iy, gradDemo ix iy ∈ grad3 := by
    intro ix iy
    unfold gradDemo
    split
    · decide
    · split
      · decide
      · decide
  have hsample : sampleAt gradDemo 8 8 3 3 = -(400483/4194304) := by
    have e0 : simplex2D gradDemo (-(1/8) * 1) (-(1/8) * 1) = -(1771875/2097152) := by
      norm_num [simplex2D, simplexContribution, gradDemo]
    have e1 : simplex2D gradDemo (-(1/8) * (1 * 2)) (-(1/8) * (1 * 2)) = -(2835/4096) := by
      norm_num [simplex2D, simplexContribution, gradDemo]
    have e2 : simplex2D gradDemo (-(1/8) * (1 * 2 * 2)) (-(1/8) * (1 * 2 * 2)) = 0 := by
      norm_num [simplex2D, simplexContribution, gradDemo]
    have e3 : simplex2D gradDemo (-(1/8) * (1 * 2 * 2 * 2))
        (-(1/8) * (1 * 2 * 2 * 2)) = 0 := by
      norm_num [simplex2D, simplexContribution, gradDemo]
    have e4 : simplex2D gradDemo (-(1/8) * (1 * 2 * 2 * 2 * 2))
        (-(1/8) * (1 * 2 * 2 * 2 * 2)) = 0 := by
      norm_num [simplex2D, simplexContribution, gradDemo]
    have e5 : simplex2D gradDemo (-(1/8) * (1 * 2 * 2 * 2 * 2 * 2))
        (-(1/8) * (1 * 2 * 2 * 2 * 2 * 2)) = 0 := by
      norm_num [simplex2D, simplexContribution, gradDemo]
    have hnx : ((3 : ℕ) : ℚ) / ((8 : ℕ) : ℚ) - 1 / 2 = -(1/8) := by norm_num
    have hr : List.range 6 = [0, 1, 2, 3, 4, 5] := rfl
    simp only [sampleAt]
    rw [hnx]
    simp only [octaveValue, hr, List.foldl_cons, List.foldl_nil]
    rw [e0, e1, e2, e3, e4, e5]
    norm_num
  have hget : (generateRandomHeightmap gradDemo 8 8).data.getD (3 * 8 + 3) 0 =
      sampleAt gradDemo 8 8 3 3 := by
    show ((List.range (8 * 8)).map fun index =>
      sampleAt gradDemo 8 8 (index % 8) (index / 8)).getD 27 0 = _
    rw [List.getD_eq_getElem _ 0 (by norm_num)]
    simp
  refine ⟨hadm, by simp [generateRandomHeightmap], ?_, ?_⟩
  · rw [hget, hsample]
  · rw [hget, hsample]
    norm_num
